import Mathlib

/-!
Shallow embedding of `src/reuse/_util.py` (misc. utilities for reuse):
`setup_logging`, `execute_command`, `find_root`, `in_git_repo` and
`decoded_text_from_binary`.

Modelling conventions:
* Python byte strings are `List Nat` (each element a byte value).
* Python text strings are `List Char` (Lean `Char` is a Unicode scalar
  value, as is each code point of a Python `str` produced by decoding).
* External effects are explicit: the process launcher is an oracle
  `world : RunCall → CompletedProcess`, `chardet.detect`'s encoding field
  is an oracle `List Nat → Option String`, and the table of Python codecs
  is an oracle `String → Errors → List Nat → Except PyError (List Char)`.
  The UTF-8 codec itself is implemented concretely below.
* Functions that can raise a Python exception return `Except PyError`.
* Functions that launch processes also return the list of `RunCall`s they
  performed, so that "no external process was launched" is expressible.
-/

/-- Python exceptions that the modelled code paths can raise. -/
inductive PyError where
  | typeError
  | unicodeDecodeError
deriving DecidableEq, Repr

/-- The `errors` argument of `bytes.decode`: only the two modes the module
uses (`'strict'`, the default, and `'replace'`). -/
inductive Errors where
  | strict
  | replace
deriving DecidableEq, Repr

/-- Python values that appear as keyword-argument values in this module:
stream targets (`subprocess.PIPE`, `subprocess.DEVNULL`, ...) and strings
(for `cwd=`). -/
inductive PyVal where
  | pipe
  | devnull
  | noneVal
  | intVal (n : Int)
  | strVal (s : String)
deriving DecidableEq, Repr

/-- The argument record of one `subprocess.run` invocation: positional
command token list, the `stdout=`/`stderr=` targets, and the remaining
forwarded keyword arguments. -/
structure RunCall where
  command : List String
  stdout : PyVal
  stderr : PyVal
  extra : List (String × PyVal)
deriving DecidableEq, Repr

/-- The fields of `subprocess.CompletedProcess` that the module reads. -/
structure CompletedProcess where
  returncode : Int
  stdout : List Nat
  stderr : List Nat
deriving DecidableEq, Repr

/-- `execute_command(command, logger, **kwargs)`:

    stdout = kwargs.get('stdout', subprocess.PIPE)
    stderr = kwargs.get('stderr', subprocess.PIPE)
    return subprocess.run(command, stdout=stdout, stderr=stderr, **kwargs)

The `logger.debug(...)` call only emits a diagnostic line and is not
modelled.  The result is the argument record handed to `subprocess.run`.
Python's keyword-argument semantics make the call
`subprocess.run(command, stdout=stdout, stderr=stderr, **kwargs)` raise
`TypeError: got multiple values for keyword argument` whenever `kwargs`
itself still contains a `stdout` or `stderr` key (`dict.get` does not
remove the key), which this embedding reproduces. -/
def execute_command (command : List String) (kwargs : List (String × PyVal)) :
    Except PyError RunCall :=
  let stdout := (List.lookup "stdout" kwargs).getD PyVal.pipe
  let stderr := (List.lookup "stderr" kwargs).getD PyVal.pipe
  if kwargs.any (fun kv => kv.fst == "stdout" || kv.fst == "stderr") then
    Except.error PyError.typeError
  else
    Except.ok { command := command, stdout := stdout, stderr := stderr, extra := kwargs }

/-- A `logging.Handler`, reduced to the field the module sets: its
formatter's format string (if a formatter was attached). -/
structure Handler where
  formatter : Option String
deriving DecidableEq, Repr

/-- The slice of the `logging` module state that `setup_logging` touches:
the named `'reuse'` logger (level, handler list, `propagate` flag) and the
handler lists of its ancestors, collapsed into the root logger (`'reuse'`
has no dot, so its only ancestor is the root logger). -/
structure LoggingState where
  reuseLevel : Int
  reuseHandlers : List Handler
  reusePropagate : Bool
  rootHandlers : List Handler
deriving DecidableEq, Repr

/-- A freshly imported `logging` module: no handlers anywhere, level
`NOTSET` (0), `propagate` defaulting to `True`. -/
def initialLoggingState : LoggingState :=
  { reuseLevel := 0, reuseHandlers := [], reusePropagate := true, rootHandlers := [] }

/-- `logging.Logger.hasHandlers()` for the `'reuse'` logger: true when the
logger itself has a handler, or when it propagates and an ancestor (the
root logger) has one. -/
def reuseHasHandlers (st : LoggingState) : Bool :=
  !st.reuseHandlers.isEmpty || (st.reusePropagate && !st.rootHandlers.isEmpty)

/-- The format string `setup_logging` installs. -/
def reuseFormat : String := "%(name)s - %(levelname)s - %(message)s"

/-- `setup_logging(level=logging.WARNING)`:

    library_logger = logging.getLogger('reuse')
    library_logger.setLevel(level)
    if not library_logger.hasHandlers():
        handler = logging.StreamHandler()
        formatter = logging.Formatter('%(name)s - %(levelname)s - %(message)s')
        handler.setFormatter(formatter)
        library_logger.addHandler(handler)

`logging.WARNING = 30`. -/
def setup_logging (st : LoggingState) (level : Int := 30) : LoggingState :=
  let st1 := { st with reuseLevel := level }
  if reuseHasHandlers st1 then
    st1
  else
    { st1 with reuseHandlers := st1.reuseHandlers ++ [{ formatter := some reuseFormat }] }

/-- The U+FFFD REPLACEMENT CHARACTER, which `errors='replace'` substitutes
for undecodable byte sequences. -/
def replacementChar : Char := Char.ofNat 0xFFFD

/-- Is `b` a UTF-8 continuation byte (`0x80`-`0xBF`)? -/
def isCont (b : Nat) : Bool := 0x80 ≤ b && b < 0xC0

/-- CPython's UTF-8 encoder for one scalar value (standard UTF-8). -/
def utf8EncodeChar (c : Char) : List Nat :=
  let n := c.toNat
  if n < 0x80 then [n]
  else if n < 0x800 then [0xC0 + n / 64, 0x80 + n % 64]
  else if n < 0x10000 then
    [0xE0 + n / 4096, 0x80 + (n / 64) % 64, 0x80 + n % 64]
  else
    [0xF0 + n / 262144, 0x80 + (n / 4096) % 64, 0x80 + (n / 64) % 64, 0x80 + n % 64]

/-- UTF-8 encoding of a text. -/
def utf8Encode (s : List Char) : List Nat := s.flatMap utf8EncodeChar

/-- Is `v` a scalar value a three-byte UTF-8 sequence may denote: not
overlong (`≥ 0x800`) and not a surrogate? -/
def utf8Valid3 (v : Nat) : Bool := 0x800 ≤ v && (v < 0xD800 || 0xE000 ≤ v)

/-- Is `v` a scalar value a four-byte UTF-8 sequence may denote: not
overlong (`≥ 0x10000`) and at most U+10FFFF? -/
def utf8Valid4 (v : Nat) : Bool := 0x10000 ≤ v && v < 0x110000

/-- Parse one UTF-8-encoded scalar value from lead byte `b` followed by
`rest`; `some (c, k)` yields the scalar `c` and the number `k` of
continuation bytes consumed from `rest`.  Accepts exactly the well-formed
sequences (RFC 3629: no overlongs, no surrogates, nothing above U+10FFFF),
as CPython's UTF-8 decoder does. -/
def utf8Decode1 (b : Nat) (rest : List Nat) : Option (Char × Nat) :=
  if b < 0x80 then some (Char.ofNat b, 0)
  else if b < 0xE0 then
    match rest with
    | b2 :: _ =>
      if 0xC2 ≤ b && isCont b2 then some (Char.ofNat ((b - 0xC0) * 64 + (b2 - 0x80)), 1)
      else none
    | [] => none
  else if b < 0xF0 then
    match rest with
    | b2 :: b3 :: _ =>
      if isCont b2 && isCont b3 && utf8Valid3 ((b - 0xE0) * 4096 + (b2 - 0x80) * 64 + (b3 - 0x80)) then
        some (Char.ofNat ((b - 0xE0) * 4096 + (b2 - 0x80) * 64 + (b3 - 0x80)), 2)
      else none
    | _ => none
  else
    match rest with
    | b2 :: b3 :: b4 :: _ =>
      if b < 0xF5 && (isCont b2 && isCont b3 && isCont b4) &&
          utf8Valid4 ((b - 0xF0) * 262144 + (b2 - 0x80) * 4096 + (b3 - 0x80) * 64 + (b4 - 0x80)) then
        some (Char.ofNat ((b - 0xF0) * 262144 + (b2 - 0x80) * 4096 + (b3 - 0x80) * 64 + (b4 - 0x80)), 3)
      else none
    | _ => none

/-- `rawdata.decode('utf-8', errors)`: CPython's incremental UTF-8
decoder.  In `'strict'` mode an undecodable sequence raises
`UnicodeDecodeError`; in `'replace'` mode the offending lead byte is
replaced by U+FFFD and decoding resumes at the next byte. -/
def utf8Decode (err : Errors) : List Nat → Except PyError (List Char)
  | [] => Except.ok []
  | b :: rest =>
    match utf8Decode1 b rest with
    | some (c, k) => (utf8Decode err (rest.drop k)).map (fun s => c :: s)
    | none =>
      match err with
      | Errors.strict => Except.error PyError.unicodeDecodeError
      | Errors.replace => (utf8Decode err rest).map (fun s => replacementChar :: s)
termination_by l => l.length
decreasing_by
  · simp +arith [List.length_drop]
  · simp +arith

/-- `rawdata.decode('ISO-8859-1', errors)`: Latin-1 maps byte `b` to code
point `b`; every byte sequence decodes, in either error mode. -/
def latin1Decode (b : List Nat) : Except PyError (List Char) :=
  Except.ok (b.map (fun n => Char.ofNat (n % 256)))

/-- `binary_file.read(size)` on a binary stream whose remaining contents
are `binary_file`: with `size=None` read everything, otherwise read up to
`size` bytes. -/
def readBytes (binary_file : List Nat) (size : Option Nat) : List Nat :=
  match size with
  | none => binary_file
  | some n => binary_file.take n

/-- `decoded_text_from_binary(binary_file, size=None)`:

    rawdata = binary_file.read(size)
    result = chardet.detect(rawdata)
    encoding = result.get('encoding')
    if encoding is None:
        encoding = 'utf-8'
    return rawdata.decode(encoding, errors='replace')

`decode` is the table of Python codecs (an oracle: chardet can name any
codec; `decode "utf-8"` is pinned to `utf8Decode` by hypothesis where it
matters); `detect` is the `'encoding'` field of `chardet.detect`'s
answer, `none` when detection yields no encoding. -/
def decoded_text_from_binary
    (decode : String → Errors → List Nat → Except PyError (List Char))
    (detect : List Nat → Option String)
    (binary_file : List Nat) (size : Option Nat := none) :
    Except PyError (List Char) :=
  let rawdata := readBytes binary_file size
  let encoding :=
    match detect rawdata with
    | none => "utf-8"
    | some e => e
  decode encoding Errors.replace rawdata

/-- The ambient state the git helpers read: `GIT_EXE = shutil.which('git')`
resolved at import time, the current working directory `Path.cwd()`, and
the outcome of launching an external process (`world`). -/
structure GitEnv where
  gitExe : Option String
  pwd : String
  world : RunCall → CompletedProcess

/-- `in_git_repo(cwd=None)`:

    if GIT_EXE is None:
        return False
    if cwd is None:
        cwd = Path.cwd()
    command = [GIT_EXE, 'status']
    result = execute_command(command, _logger, cwd=str(cwd))
    return not result.returncode

Besides the boolean (`Except` for a propagating exception), the model
returns the list of external-process launches the call performed. -/
def in_git_repo (env : GitEnv) (cwd : Option String := none) :
    Except PyError Bool × List RunCall :=
  match env.gitExe with
  | none => (Except.ok false, [])
  | some exe =>
    let c := cwd.getD env.pwd
    match execute_command [exe, "status"] [("cwd", PyVal.strVal c)] with
    | Except.error e => (Except.error e, [])
    | Except.ok call =>
      let result := env.world call
      (Except.ok (result.returncode == 0), [call])

/-- `find_root()`:

    cwd = Path.cwd()
    if in_git_repo(cwd):
        command = [GIT_EXE, 'rev-parse', '--show-toplevel']
        result = execute_command(command, _logger, cwd=str(cwd))
        if not result.returncode:
            return Path(result.stdout.decode('utf-8')[:-1])
    return None

`result.stdout.decode('utf-8')` uses the default `errors='strict'`; the
slice `[:-1]` drops the final code point; `Path(s)` is modelled as the
code-point list `s` itself.  The branch rebuilding `command` when
`GIT_EXE is None` is unreachable (then `in_git_repo` is `False`); Python
would raise a `TypeError` inside `subprocess.run` there, which the model
mirrors. -/
def find_root (env : GitEnv) : Except PyError (Option (List Char)) × List RunCall :=
  let cwd := env.pwd
  match in_git_repo env (some cwd) with
  | (Except.error e, t) => (Except.error e, t)
  | (Except.ok false, t) => (Except.ok none, t)
  | (Except.ok true, t) =>
    match env.gitExe with
    | none => (Except.error PyError.typeError, t)
    | some exe =>
      match execute_command [exe, "rev-parse", "--show-toplevel"] [("cwd", PyVal.strVal cwd)] with
      | Except.error e => (Except.error e, t)
      | Except.ok call =>
        let result := env.world call
        if result.returncode == 0 then
          match utf8Decode Errors.strict result.stdout with
          | Except.error e => (Except.error e, t ++ [call])
          | Except.ok s => (Except.ok (some s.dropLast), t ++ [call])
        else (Except.ok none, t ++ [call])

/-- The `subprocess.run` argument record of the git status query that
`in_git_repo` builds for executable `exe` and working directory `d`. -/
def statusCall (exe d : String) : RunCall :=
  { command := [exe, "status"], stdout := PyVal.pipe, stderr := PyVal.pipe,
    extra := [("cwd", PyVal.strVal d)] }

/-- The `subprocess.run` argument record of the top-level query that
`find_root` builds for executable `exe` and working directory `d`. -/
def revParseCall (exe d : String) : RunCall :=
  { command := [exe, "rev-parse", "--show-toplevel"], stdout := PyVal.pipe,
    stderr := PyVal.pipe, extra := [("cwd", PyVal.strVal d)] }

/-- A concrete codec table for witnesses: every encoding name decodes like
UTF-8 (in particular `"utf-8"` does). -/
def utf8OnlyCodecs : String → Errors → List Nat → Except PyError (List Char) :=
  fun _ err d => utf8Decode err d

/-- A concrete codec table where `'ISO-8859-1'` decodes as Latin-1 and
every other name as UTF-8. -/
def latinCodecs : String → Errors → List Nat → Except PyError (List Char) :=
  fun enc err d => if enc = "ISO-8859-1" then latin1Decode d else utf8Decode err d

/-- A detection oracle that never yields an encoding (as `chardet.detect`
does on empty input). -/
def detectNone : List Nat → Option String := fun _ => none

/-- A detection oracle answering ISO-8859-1; `chardet` is statistical and
may answer a non-UTF-8 encoding even on valid UTF-8 bytes. -/
def detectLatin : List Nat → Option String := fun _ => some "ISO-8859-1"

/-- A machine without git installed (`shutil.which('git')` returned
`None`). -/
def noGitEnv : GitEnv :=
  { gitExe := none, pwd := "/tmp",
    world := fun _ => { returncode := 1, stdout := [], stderr := [] } }

/-- A machine where every git invocation succeeds and the top-level query
prints `/tmp/example-repo` followed by a newline. -/
def exampleWorld : RunCall → CompletedProcess := fun call =>
  if call.command = ["git", "rev-parse", "--show-toplevel"] then
    { returncode := 0, stdout := utf8Encode ("/tmp/example-repo".toList ++ ['\n']), stderr := [] }
  else
    { returncode := 0, stdout := [], stderr := [] }

/-- Inside the checkout `/tmp/example-repo`, git installed. -/
def exampleGitEnv : GitEnv :=
  { gitExe := some "git", pwd := "/tmp/example-repo/sub", world := exampleWorld }

/-- Outside any checkout: git installed, but `git status` exits 128. -/
def outsideGitEnv : GitEnv :=
  { gitExe := some "git", pwd := "/home/user",
    world := fun _ => { returncode := 128, stdout := [], stderr := [] } }

theorem char_toNat_valid (c : Char) :
    c.toNat < 0xD800 ∨ (0xDFFF < c.toNat ∧ c.toNat < 0x110000) := c.valid

theorem utf8Decode_nil (err : Errors) : utf8Decode err [] = Except.ok [] :=
  utf8Decode.eq_1 err

theorem utf8Decode_cons_valid (err : Errors) {b k : Nat} {rest : List Nat} {c : Char}
    (h : utf8Decode1 b rest = some (c, k)) :
    utf8Decode err (b :: rest) = (utf8Decode err (rest.drop k)).map (fun s => c :: s) := by
  cases err <;> simp only [utf8Decode, h]

theorem utf8Decode_cons_invalid {b : Nat} {rest : List Nat}
    (h : utf8Decode1 b rest = none) :
    utf8Decode Errors.strict (b :: rest) = Except.error PyError.unicodeDecodeError ∧
    utf8Decode Errors.replace (b :: rest) =
      (utf8Decode Errors.replace rest).map (fun s => replacementChar :: s) := by
  constructor <;> simp only [utf8Decode, h]

theorem utf8Decode1_encodeChar (c : Char) (l : List Nat) :
    ∃ b t, utf8EncodeChar c = b :: t ∧ utf8Decode1 b (t ++ l) = some (c, t.length) := by
  have hv := char_toNat_valid c
  by_cases h1 : c.toNat < 0x80
  · refine ⟨c.toNat, [], by simp [utf8EncodeChar, h1], ?_⟩
    simp [utf8Decode1, h1, Char.ofNat_toNat]
  · by_cases h2 : c.toNat < 0x800
    · refine ⟨0xC0 + c.toNat / 64, [0x80 + c.toNat % 64], by simp [utf8EncodeChar, h1, h2], ?_⟩
      have hb1 : ¬ (0xC0 + c.toNat / 64 < 0x80) := by omega
      have hb2 : 0xC0 + c.toNat / 64 < 0xE0 := by omega
      have hc : (decide (0xC2 ≤ 0xC0 + c.toNat / 64) && isCont (0x80 + c.toNat % 64)) = true := by
        simp [isCont]
        omega
      have harith : (0xC0 + c.toNat / 64 - 0xC0) * 64 + (0x80 + c.toNat % 64 - 0x80) = c.toNat := by
        omega
      simp only [utf8Decode1, List.cons_append, List.nil_append, if_neg hb1, if_pos hb2,
        if_pos hc, harith, Char.ofNat_toNat, List.length_cons, List.length_nil]
    · by_cases h3 : c.toNat < 0x10000
      · refine ⟨0xE0 + c.toNat / 4096,
          [0x80 + (c.toNat / 64) % 64, 0x80 + c.toNat % 64],
          by simp [utf8EncodeChar, h1, h2, h3], ?_⟩
        have hb1 : ¬ (0xE0 + c.toNat / 4096 < 0x80) := by omega
        have hb2 : ¬ (0xE0 + c.toNat / 4096 < 0xE0) := by omega
        have hb3 : 0xE0 + c.toNat / 4096 < 0xF0 := by omega
        have hc : (isCont (0x80 + (c.toNat / 64) % 64) && isCont (0x80 + c.toNat % 64) &&
            utf8Valid3 ((0xE0 + c.toNat / 4096 - 0xE0) * 4096 +
              (0x80 + (c.toNat / 64) % 64 - 0x80) * 64 + (0x80 + c.toNat % 64 - 0x80))) = true := by
          simp [isCont, utf8Valid3]
          omega
        have harith : (0xE0 + c.toNat / 4096 - 0xE0) * 4096 +
            (0x80 + (c.toNat / 64) % 64 - 0x80) * 64 + (0x80 + c.toNat % 64 - 0x80) = c.toNat := by
          omega
        rw [harith] at hc
        simp only [utf8Decode1, List.cons_append, List.nil_append, if_neg hb1, if_neg hb2,
          if_pos hb3, harith, if_pos hc, Char.ofNat_toNat, List.length_cons, List.length_nil]
      · refine ⟨0xF0 + c.toNat / 262144,
          [0x80 + (c.toNat / 4096) % 64, 0x80 + (c.toNat / 64) % 64, 0x80 + c.toNat % 64],
          by simp [utf8EncodeChar, h1, h2, h3], ?_⟩
        have hb1 : ¬ (0xF0 + c.toNat / 262144 < 0x80) := by omega
        have hb2 : ¬ (0xF0 + c.toNat / 262144 < 0xE0) := by omega
        have hb3 : ¬ (0xF0 + c.toNat / 262144 < 0xF0) := by omega
        have hc : (decide (0xF0 + c.toNat / 262144 < 0xF5) &&
            (isCont (0x80 + (c.toNat / 4096) % 64) && isCont (0x80 + (c.toNat / 64) % 64) &&
              isCont (0x80 + c.toNat % 64)) &&
            utf8Valid4 ((0xF0 + c.toNat / 262144 - 0xF0) * 262144 +
              (0x80 + (c.toNat / 4096) % 64 - 0x80) * 4096 +
              (0x80 + (c.toNat / 64) % 64 - 0x80) * 64 + (0x80 + c.toNat % 64 - 0x80))) = true := by
          simp [isCont, utf8Valid4]
          omega
        have harith : (0xF0 + c.toNat / 262144 - 0xF0) * 262144 +
            (0x80 + (c.toNat / 4096) % 64 - 0x80) * 4096 +
            (0x80 + (c.toNat / 64) % 64 - 0x80) * 64 + (0x80 + c.toNat % 64 - 0x80) = c.toNat := by
          omega
        rw [harith] at hc
        simp only [utf8Decode1, List.cons_append, List.nil_append, if_neg hb1, if_neg hb2,
          if_neg hb3, harith, if_pos hc, Char.ofNat_toNat, List.length_cons, List.length_nil]

theorem utf8Decode_encodeChar (err : Errors) (c : Char) (l : List Nat) :
    utf8Decode err (utf8EncodeChar c ++ l) = (utf8Decode err l).map (fun s => c :: s) := by
  obtain ⟨b, t, he, hd⟩ := utf8Decode1_encodeChar c l
  rw [he, List.cons_append, utf8Decode_cons_valid err hd, List.drop_left]

/-- Decoding is a left inverse of encoding: UTF-8 decoding (in either
error mode) of the UTF-8 encoding of a text returns exactly that text. -/
theorem utf8Decode_utf8Encode (err : Errors) (s : List Char) :
    utf8Decode err (utf8Encode s) = Except.ok s := by
  induction s with
  | nil => exact utf8Decode_nil err
  | cons c cs ih =>
    rw [show utf8Encode (c :: cs) = utf8EncodeChar c ++ utf8Encode cs by
        simp [utf8Encode, List.flatMap_cons],
      utf8Decode_encodeChar, ih]
    rfl

/-- In `'replace'` mode the UTF-8 decoder never fails, on any byte list. -/
theorem utf8Decode_replace_ok (l : List Nat) :
    ∃ s, utf8Decode Errors.replace l = Except.ok s := by
  suffices h : ∀ (n : Nat) (l : List Nat), l.length ≤ n →
      ∃ s, utf8Decode Errors.replace l = Except.ok s from h l.length l le_rfl
  intro n
  induction n with
  | zero =>
    intro l hl
    cases l with
    | nil => exact ⟨[], utf8Decode_nil _⟩
    | cons b rest => simp at hl
  | succ n ih =>
    intro l hl
    cases l with
    | nil => exact ⟨[], utf8Decode_nil _⟩
    | cons b rest =>
      cases hx : utf8Decode1 b rest with
      | some ck =>
        obtain ⟨c, k⟩ := ck
        obtain ⟨s, hs⟩ := ih (rest.drop k) (by simp [List.length_drop] at hl ⊢; omega)
        exact ⟨c :: s, by rw [utf8Decode_cons_valid _ hx, hs]; rfl⟩
      | none =>
        obtain ⟨s, hs⟩ := ih rest (by simp at hl; omega)
        exact ⟨replacementChar :: s, by rw [(utf8Decode_cons_invalid hx).2, hs]; rfl⟩

theorem execute_command_cwd (command : List String) (d : String) :
    execute_command command [("cwd", PyVal.strVal d)] =
      Except.ok { command := command, stdout := PyVal.pipe, stderr := PyVal.pipe,
                  extra := [("cwd", PyVal.strVal d)] } := rfl

theorem in_git_repo_spec (env : GitEnv) (exe d : String) (h : env.gitExe = some exe) :
    in_git_repo env (some d) =
      (Except.ok ((env.world (statusCall exe d)).returncode == 0), [statusCall exe d]) := by
  unfold in_git_repo
  rw [h]
  simp only [Option.getD_some, execute_command_cwd, statusCall]

/-- C1: `decoded_text_from_binary` never raises, for any input bytes: it
runs encoding detection over the bytes read and decodes them in
`'replace'` mode with the detected encoding, falling back to UTF-8 when
detection yields no encoding; since `'replace'` substitutes undecodable
byte sequences with a placeholder instead of raising, every input yields
a string. -/
theorem decoded_text_never_raises
    (decode : String → Errors → List Nat → Except PyError (List Char))
    (detect : List Nat → Option String) (binary_file : List Nat) (size : Option Nat)
    (hreplace : ∀ enc d, ∃ s, decode enc Errors.replace d = Except.ok s) :
    (∃ s, decoded_text_from_binary decode detect binary_file size = Except.ok s) ∧
    decoded_text_from_binary decode detect binary_file size =
      decode ((detect (readBytes binary_file size)).getD "utf-8") Errors.replace
        (readBytes binary_file size) := by
  have heq : decoded_text_from_binary decode detect binary_file size =
      decode ((detect (readBytes binary_file size)).getD "utf-8") Errors.replace
        (readBytes binary_file size) := by
    unfold decoded_text_from_binary
    cases h : detect (readBytes binary_file size) <;> simp [h]
  exact ⟨heq ▸ hreplace _ _, heq⟩

/-- C1 witness: a concrete invalid-UTF-8 input (`FF 61`), no detected
encoding, UTF-8 codec table. -/
theorem decoded_text_never_raises_witness :
    (∃ s, decoded_text_from_binary utf8OnlyCodecs detectNone [0xFF, 0x61] none = Except.ok s) ∧
    decoded_text_from_binary utf8OnlyCodecs detectNone [0xFF, 0x61] none =
      utf8OnlyCodecs ((detectNone (readBytes [0xFF, 0x61] none)).getD "utf-8") Errors.replace
        (readBytes [0xFF, 0x61] none) :=
  decoded_text_never_raises utf8OnlyCodecs detectNone [0xFF, 0x61] none
    (fun _ d => utf8Decode_replace_ok d)

/-- C2: by default `execute_command` sends both stdout and stderr to
capture pipes; but a caller-supplied `stdout=` (or `stderr=`) override
does not make the call succeed with the override: `kwargs.get` leaves the
key in `kwargs`, so `subprocess.run(command, stdout=stdout,
stderr=stderr, **kwargs)` raises `TypeError` (duplicate keyword
argument), contradicting the claim and the function's own docstring. -/
theorem execute_command_override_raises :
    execute_command ["git", "status"] [] =
      Except.ok { command := ["git", "status"], stdout := PyVal.pipe, stderr := PyVal.pipe,
                  extra := [] } ∧
    execute_command ["git", "status"] [("stdout", PyVal.devnull)] =
      Except.error PyError.typeError ∧
    execute_command ["git", "status"] [("stderr", PyVal.devnull)] =
      Except.error PyError.typeError :=
  ⟨rfl, rfl, rfl⟩

/-- C3: when no git executable was resolved at startup, `in_git_repo`
returns `False` for every candidate directory, without raising and
without launching any external process (empty invocation trace). -/
theorem in_git_repo_no_git (env : GitEnv) (cwd : Option String)
    (h : env.gitExe = none) :
    in_git_repo env cwd = (Except.ok false, []) := by
  unfold in_git_repo
  rw [h]

/-- C3 witness: a machine without git, an arbitrary candidate directory. -/
theorem in_git_repo_no_git_witness :
    in_git_repo noGitEnv (some "/anywhere") = (Except.ok false, []) :=
  in_git_repo_no_git noGitEnv (some "/anywhere") rfl

/-- C5: for all minimum-severity levels, calling `setup_logging` twice in
succession from an unconfigured logging state leaves exactly one handler
on the 'reuse' logger; the second call changes nothing but the level. -/
theorem setup_logging_idempotent (l1 l2 : Int) :
    (setup_logging (setup_logging initialLoggingState l1) l2).reuseHandlers.length = 1 ∧
    setup_logging (setup_logging initialLoggingState l1) l2 =
      { setup_logging initialLoggingState l1 with reuseLevel := l2 } := by
  simp [setup_logging, initialLoggingState, reuseHasHandlers]

/-- C9: an empty binary stream (with `size` unspecified) decodes to the
empty string: detection yields no encoding, the UTF-8 fallback is taken,
and decoding zero bytes returns `''` without raising. -/
theorem decoded_text_empty
    (decode : String → Errors → List Nat → Except PyError (List Char))
    (detect : List Nat → Option String)
    (hu8 : ∀ err d, decode "utf-8" err d = utf8Decode err d)
    (hdet : detect [] = none) :
    decoded_text_from_binary decode detect [] none = Except.ok [] := by
  simp [decoded_text_from_binary, readBytes, hdet, hu8, utf8Decode_nil]

/-- C9 witness: the UTF-8 codec table and the no-answer detector. -/
theorem decoded_text_empty_witness :
    decoded_text_from_binary utf8OnlyCodecs detectNone [] none = Except.ok [] :=
  decoded_text_empty utf8OnlyCodecs detectNone (fun _ _ => rfl) rfl

/-- C10: the idempotence guard is `hasHandlers`, which consults ancestor
loggers: when the root logger already has a handler (and 'reuse'
propagates, the default), `setup_logging` attaches nothing to the 'reuse'
logger and only sets its level, leaving its handler list unchanged. -/
theorem setup_logging_ancestor_handler (st : LoggingState) (level : Int)
    (hroot : st.rootHandlers ≠ []) (hprop : st.reusePropagate = true) :
    setup_logging st level = { st with reuseLevel := level } := by
  unfold setup_logging
  have hh : reuseHasHandlers { st with reuseLevel := level } = true := by
    simp [reuseHasHandlers, hprop, hroot]
  rw [if_pos hh]

/-- C10 witness: root logger configured, 'reuse' logger bare; only the
level changes and the 'reuse' handler list stays empty. -/
theorem setup_logging_ancestor_handler_witness :
    setup_logging
        { reuseLevel := 0, reuseHandlers := [], reusePropagate := true,
          rootHandlers := [{ formatter := none }] } 10 =
      { reuseLevel := 10, reuseHandlers := [], reusePropagate := true,
        rootHandlers := [{ formatter := none }] } :=
  setup_logging_ancestor_handler
    { reuseLevel := 0, reuseHandlers := [], reusePropagate := true,
      rootHandlers := [{ formatter := none }] } 10 (by simp) rfl

theorem execute_command_status (exe d : String) :
    execute_command [exe, "status"] [("cwd", PyVal.strVal d)] =
      Except.ok (statusCall exe d) := rfl

theorem execute_command_revparse (exe d : String) :
    execute_command [exe, "rev-parse", "--show-toplevel"] [("cwd", PyVal.strVal d)] =
      Except.ok (revParseCall exe d) := rfl

/-- C7: for a candidate directory whose git status query runs to
completion, `in_git_repo` answers `True` exactly when the query's exit
code is zero, and `False` (an ordinary return value, no exception)
exactly when it is non-zero. -/
theorem in_git_repo_iff_exit_zero (env : GitEnv) (exe d : String)
    (h : env.gitExe = some exe) :
    ((in_git_repo env (some d)).fst = Except.ok true ↔
      (env.world (statusCall exe d)).returncode = 0) ∧
    ((in_git_repo env (some d)).fst = Except.ok false ↔
      (env.world (statusCall exe d)).returncode ≠ 0) := by
  rw [in_git_repo_spec env exe d h]
  constructor
  · simp
  · simp

/-- C7 witness: outside a checkout git status exits 128, and the check
answers `False`. -/
theorem in_git_repo_iff_exit_zero_witness :
    (((in_git_repo outsideGitEnv (some "/home/user")).fst = Except.ok true ↔
      (outsideGitEnv.world (statusCall "git" "/home/user")).returncode = 0) ∧
     ((in_git_repo outsideGitEnv (some "/home/user")).fst = Except.ok false ↔
      (outsideGitEnv.world (statusCall "git" "/home/user")).returncode ≠ 0)) ∧
    (in_git_repo outsideGitEnv (some "/home/user")).fst = Except.ok false :=
  ⟨in_git_repo_iff_exit_zero outsideGitEnv "git" "/home/user" rfl, rfl⟩

/-- C6: `find_root` invoked from a directory outside any checkout (the
status query exits non-zero) returns the absence marker `None` and
raises no exception. -/
theorem find_root_outside (env : GitEnv) (exe : String)
    (h : env.gitExe = some exe)
    (hst : (env.world (statusCall exe env.pwd)).returncode ≠ 0) :
    find_root env = (Except.ok none, [statusCall exe env.pwd]) := by
  have hb : ((env.world (statusCall exe env.pwd)).returncode == 0) = false := by
    simp [hst]
  simp only [find_root, in_git_repo_spec env exe env.pwd h, hb]

/-- C6 witness: git installed, status exits 128. -/
theorem find_root_outside_witness :
    find_root outsideGitEnv = (Except.ok none, [statusCall "git" "/home/user"]) :=
  find_root_outside outsideGitEnv "git" rfl (by decide)

/-- C4: `find_root` inside a checkout (status exit 0), when the top-level
query exits 0 and prints the top-level path followed by a newline,
returns exactly that path with the trailing newline stripped and no
other characters removed or altered. -/
theorem find_root_toplevel (env : GitEnv) (exe : String) (p : List Char)
    (h : env.gitExe = some exe)
    (hst : (env.world (statusCall exe env.pwd)).returncode = 0)
    (hrc : (env.world (revParseCall exe env.pwd)).returncode = 0)
    (hout : (env.world (revParseCall exe env.pwd)).stdout = utf8Encode (p ++ ['\n'])) :
    find_root env =
      (Except.ok (some p), [statusCall exe env.pwd, revParseCall exe env.pwd]) := by
  have hb1 : ((env.world (statusCall exe env.pwd)).returncode == 0) = true := by
    simp [hst]
  have hb2 : ((env.world (revParseCall exe env.pwd)).returncode == 0) = true := by
    simp [hrc]
  simp only [find_root, in_git_repo_spec env exe env.pwd h, hb1, h, execute_command_revparse,
    hb2, hout, utf8Decode_utf8Encode, List.dropLast_concat, if_true, List.singleton_append,
    List.cons_append, List.nil_append]

/-- C4 witness: the checkout `/tmp/example-repo`; the query prints
`/tmp/example-repo` plus newline and `find_root` returns exactly
`/tmp/example-repo`. -/
theorem find_root_toplevel_witness :
    find_root exampleGitEnv =
      (Except.ok (some "/tmp/example-repo".toList),
        [statusCall "git" "/tmp/example-repo/sub", revParseCall "git" "/tmp/example-repo/sub"]) :=
  find_root_toplevel exampleGitEnv "git" "/tmp/example-repo".toList rfl (by decide) (by decide)
    rfl

/-- C8 counterexample: `C3 A9` is the valid UTF-8 encoding of `"é"`, but
when the (statistical, guarantee-free) encoding detection answers
ISO-8859-1, `decoded_text_from_binary` returns `"Ã©"`, not the original
text: the decode-after-encode round trip is not the identity for every
valid-UTF-8 stream. -/
theorem decoded_text_utf8_roundtrip_cex :
    utf8Encode ['é'] = [0xC3, 0xA9] ∧
    decoded_text_from_binary latinCodecs detectLatin (utf8Encode ['é']) none =
      Except.ok ['Ã', '©'] ∧
    (['Ã', '©'] : List Char) ≠ ['é'] :=
  ⟨by decide, rfl, by decide⟩

/-- C8 (amended): for every binary stream whose contents are valid UTF-8
bytes, whenever encoding detection answers UTF-8 or yields no encoding,
`decoded_text_from_binary` returns exactly the text those bytes encode,
with no substitutions. -/
theorem decoded_text_utf8_roundtrip
    (decode : String → Errors → List Nat → Except PyError (List Char))
    (detect : List Nat → Option String) (t : List Char)
    (hu8 : ∀ err d, decode "utf-8" err d = utf8Decode err d)
    (hdet : detect (utf8Encode t) = none ∨ detect (utf8Encode t) = some "utf-8") :
    decoded_text_from_binary decode detect (utf8Encode t) none = Except.ok t := by
  rcases hdet with hd | hd <;>
    simp [decoded_text_from_binary, readBytes, hd, hu8, utf8Decode_utf8Encode]

/-- C8 witness: the `é` round trip with no detected encoding. -/
theorem decoded_text_utf8_roundtrip_witness :
    decoded_text_from_binary utf8OnlyCodecs detectNone (utf8Encode ['é']) none =
      Except.ok ['é'] :=
  decoded_text_utf8_roundtrip utf8OnlyCodecs detectNone ['é'] (fun _ _ => rfl) (Or.inl rfl)
